import Mathlib

/-!
Shallow embedding of the VXLAN tunnel endpoint (drivers/net/vxlan.c) and
proofs about its forwarding database, receive decoder, transmit header
construction and control-plane validation.

Machine integers are modelled as `Nat` with explicit `% 2^w` where overflow
matters.  MAC addresses are modelled as the 48-bit big-endian value of the
six address bytes (byte 0, the first byte on the wire, is the most
significant), so `is_multicast_ether_addr`'s test of `0x01 & addr[0]`
becomes a test of bit 40.  Error returns follow the kernel convention of
negative errno values (`Int`).  Kernel helpers that mutate state in place
are translated to functions returning the updated state; an error return
does not roll back mutations already applied, exactly as in the C code.
-/

namespace Vxlan

/-! ## Constants (from drivers/net/vxlan.c and the uapi headers it uses) -/

def NLM_F_REPLACE : Nat := 0x100
def NLM_F_EXCL : Nat := 0x200
def NLM_F_CREATE : Nat := 0x400
def NLM_F_APPEND : Nat := 0x800

def NUD_REACHABLE : Nat := 0x02
def NUD_STALE : Nat := 0x04
def NUD_NOARP : Nat := 0x40
def NUD_PERMANENT : Nat := 0x80

def NTF_SELF : Nat := 0x02
def NTF_ROUTER : Nat := 0x80

def ENOENT : Int := 2
def ENOMEM : Int := 12
def EEXIST : Int := 17
def EINVAL : Int := 22
def ENOSPC : Int := 28
def ERANGE : Int := 34
def EOPNOTSUPP : Int := 95
def EADDRNOTAVAIL : Int := 99
def ENOBUFS : Int := 105

/-- Timer tick rate.  `CONFIG_HZ` is a build-time constant of the kernel;
the claims are independent of its value, we fix the common value 100. -/
def HZ : Nat := 100

/-- `FDB_AGE_INTERVAL` = 10 * HZ: rescan interval of the ageing timer. -/
def FDB_AGE_INTERVAL : Nat := 10 * HZ

def VXLAN_N_VID : Nat := 1 <<< 24
def VXLAN_VID_MASK : Nat := VXLAN_N_VID - 1
/-- Required value of the first VXLAN header word (the "I" bit). -/
def VXLAN_FLAGS : Nat := 0x08000000
/-- `sizeof(struct udphdr) + sizeof(struct vxlanhdr)` = 8 + 8. -/
def VXLAN_HLEN : Nat := 16

/-! ## Ethernet address helpers (linux/etherdevice.h) -/

/-- `is_multicast_ether_addr`: `0x01 & addr[0]`; byte 0 is the top byte of
the 48-bit model value. -/
def is_multicast_ether_addr (mac : Nat) : Bool := (mac >>> 40) % 2 == 1

/-- `is_zero_ether_addr`: all six bytes zero. -/
def is_zero_ether_addr (mac : Nat) : Bool := mac == 0

/-- `is_valid_ether_addr`: not multicast and not all-zero. -/
def is_valid_ether_addr (mac : Nat) : Bool :=
  !is_multicast_ether_addr mac && !is_zero_ether_addr mac

/-- `IN_MULTICAST` on a host-order IPv4 address: class D,
`(a & 0xf0000000) == 0xe0000000`. -/
def IN_MULTICAST (a : Nat) : Bool := a &&& 0xf0000000 == 0xe0000000

/-! ## Data model -/

/-- `struct vxlan_rdst`: one remote destination of a forwarding entry. -/
structure Rdst where
  remote_ip : Nat
  remote_port : Nat
  remote_vni : Nat
  remote_ifindex : Nat
deriving DecidableEq, Repr

/-- `struct vxlan_fdb`: a forwarding-table entry.  `updated` and `used`
are jiffies timestamps; `remotes` is the ordered destination list. -/
structure Fdb where
  eth_addr : Nat
  state : Nat
  flags : Nat
  updated : Nat
  used : Nat
  remotes : List Rdst
deriving DecidableEq, Repr

/-- The per-device state that the modelled operations touch
(`struct vxlan_dev`).  The hash-bucket structure of `fdb_head` is a
partition by `eth_hash`; it is modelled as one flat list, which preserves
the per-chain insert-at-head / find-first semantics because all operations
key on the full MAC. -/
structure VxlanDev where
  fdb : List Fdb
  addrcnt : Nat
  addrmax : Nat
  dst_port : Nat
  default_vni : Nat
  saddr : Nat
  tos : Nat
  ttl : Nat
  port_min : Nat
  port_max : Nat
  age_interval : Nat
  running : Bool
deriving DecidableEq, Repr

/-! ## FDB primitive operations -/

/-- `__vxlan_find_mac`: first entry of the chain whose address matches. -/
def findMac (t : List Fdb) (mac : Nat) : Option Fdb :=
  t.find? (fun f => f.eth_addr == mac)

/-- Replace (in place) the first entry whose address matches by `g`
applied to it.  Models an in-place update of the entry found by
`__vxlan_find_mac`: position in the chain is preserved. -/
def updateMac (t : List Fdb) (mac : Nat) (g : Fdb → Fdb) : List Fdb :=
  match t with
  | [] => []
  | f :: rest =>
    if f.eth_addr == mac then g f :: rest else f :: updateMac rest mac g

/-- `hlist_del_rcu` of the entry found by the MAC lookup: remove the first
entry whose address matches. -/
def removeMac (t : List Fdb) (mac : Nat) : List Fdb :=
  t.eraseP (fun f => f.eth_addr == mac)

/-- `vxlan_fdb_find_rdst`: first destination matching the full 4-tuple. -/
def vxlan_fdb_find_rdst (f : Fdb) (ip port vni ifindex : Nat) : Option Rdst :=
  f.remotes.find? (fun rd =>
    rd.remote_ip == ip && rd.remote_port == port &&
    rd.remote_vni == vni && rd.remote_ifindex == ifindex)

/-- `vxlan_fdb_replace`: overwrite the first destination of a unicast
entry in place, unless the 4-tuple is already present (then no-op). -/
def vxlan_fdb_replace (f : Fdb) (ip port vni ifindex : Nat) : Fdb :=
  match vxlan_fdb_find_rdst f ip port vni ifindex with
  | some _ => f
  | none =>
    match f.remotes with
    | [] => f
    | _ :: rest => { f with remotes := ⟨ip, port, vni, ifindex⟩ :: rest }

/-- `vxlan_fdb_append`: add the destination at the tail unless the
4-tuple is already present (then a no-op returning 0).  `alloc_ok` models
the outcome of the `kmalloc` for the new `vxlan_rdst`: on failure the
function returns `-ENOBUFS` and leaves the entry untouched; on success it
appends and returns 1. -/
def vxlan_fdb_append (f : Fdb) (ip port vni ifindex : Nat)
    (alloc_ok : Bool) : Int × Fdb :=
  match vxlan_fdb_find_rdst f ip port vni ifindex with
  | some _ => (0, f)
  | none =>
    if alloc_ok then
      (1, { f with remotes := f.remotes ++ [⟨ip, port, vni, ifindex⟩] })
    else
      (-ENOBUFS, f)

/-- The two leading mutations of the found-entry branch of
`vxlan_fdb_create`: bring `state` and `flags` up to date, stamping
`updated` when either changes. -/
def fdb_upd_state_flags (f : Fdb) (state ndm_flags now : Nat) : Fdb :=
  let f1 := if f.state != state then { f with state := state, updated := now } else f
  if f1.flags != ndm_flags then { f1 with flags := ndm_flags, updated := now } else f1

/-- `vxlan_fdb_create` (add or update an entry, hash lock held).  Returns
the errno (0 on success) and the updated device state.  As in the C code,
state/flags updates to an existing entry happen before the `NLM_F_REPLACE`
check, so an `-EOPNOTSUPP` refusal still leaves those updates applied.
`alloc_ok` models the `kmalloc` outcome inside `vxlan_fdb_append`: the
found-entry branch propagates its `rc < 0` failure, while the create-new
branch ignores the return value and installs the entry regardless,
exactly as the C does. -/
def vxlan_fdb_create (dev : VxlanDev) (mac ip : Nat) (state flags : Nat)
    (port vni ifindex : Nat) (ndm_flags : Nat) (now : Nat)
    (alloc_ok : Bool) : Int × VxlanDev :=
  match findMac dev.fdb mac with
  | some f =>
    if flags &&& NLM_F_EXCL != 0 then (-EEXIST, dev)
    else
      let f2 := fdb_upd_state_flags f state ndm_flags now
      if flags &&& NLM_F_REPLACE != 0 &&
         (is_multicast_ether_addr f2.eth_addr || is_zero_ether_addr f2.eth_addr) then
        (-EOPNOTSUPP, { dev with fdb := updateMac dev.fdb mac (fun _ => f2) })
      else
        let f3 := if flags &&& NLM_F_REPLACE != 0 then
                    vxlan_fdb_replace f2 ip port vni ifindex
                  else f2
        if flags &&& NLM_F_APPEND != 0 &&
           (is_multicast_ether_addr f3.eth_addr || is_zero_ether_addr f3.eth_addr) then
          let r := vxlan_fdb_append f3 ip port vni ifindex alloc_ok
          if r.1 < 0 then
            (r.1, { dev with fdb := updateMac dev.fdb mac (fun _ => r.2) })
          else
            (0, { dev with fdb := updateMac dev.fdb mac (fun _ => r.2) })
        else
          (0, { dev with fdb := updateMac dev.fdb mac (fun _ => f3) })
  | none =>
    if flags &&& NLM_F_CREATE == 0 then (-ENOENT, dev)
    else if dev.addrmax != 0 && decide (dev.addrmax ≤ dev.addrcnt) then (-ENOSPC, dev)
    else if flags &&& NLM_F_REPLACE != 0 &&
            (is_multicast_ether_addr mac || is_zero_ether_addr mac) then
      (-EOPNOTSUPP, dev)
    else
      let f0 : Fdb := { eth_addr := mac, state := state, flags := ndm_flags,
                        updated := now, used := now, remotes := [] }
      -- the C ignores vxlan_fdb_append's return value here and hashes the
      -- entry in even when the destination allocation failed
      let f := (vxlan_fdb_append f0 ip port vni ifindex alloc_ok).2
      (0, { dev with fdb := f :: dev.fdb, addrcnt := dev.addrcnt + 1 })

/-- `vxlan_fdb_delete` (netlink delete, after `vxlan_fdb_parse`).  `ip = 0`
models `NDA_DST` absent (`INADDR_ANY`).  The entry lookup goes through
`vxlan_find_mac`, which refreshes `used`. -/
def vxlan_fdb_delete (dev : VxlanDev) (mac ip port vni ifindex : Nat)
    (now : Nat) : Int × VxlanDev :=
  match findMac dev.fdb mac with
  | none => (-ENOENT, dev)
  | some f =>
    let f := { f with used := now }
    if ip != 0 then
      match vxlan_fdb_find_rdst f ip port vni ifindex with
      | none => (-ENOENT, { dev with fdb := updateMac dev.fdb mac (fun _ => f) })
      | some rd =>
        if f.remotes.length != 1 then
          let t := updateMac dev.fdb mac (fun _ => { f with remotes := f.remotes.erase rd })
          (0, { dev with fdb := t })
        else
          (0, { dev with fdb := removeMac dev.fdb mac, addrcnt := dev.addrcnt - 1 })
    else
      (0, { dev with fdb := removeMac dev.fdb mac, addrcnt := dev.addrcnt - 1 })

/-- `vxlan_snoop`: learn the (source MAC → outer source IP) binding of a
received packet.  Returns `true` when the packet must be dropped.  The
initial `vxlan_find_mac` refreshes `used` of a found entry; creation of a
new entry happens only while the device is running
(`netif_running` re-checked under the hash lock). -/
def vxlan_snoop (dev : VxlanDev) (src_ip src_mac : Nat) (now : Nat)
    (alloc_ok : Bool) : Bool × VxlanDev :=
  match findMac dev.fdb src_mac with
  | some f =>
    let fU := { f with used := now }
    match fU.remotes with
    | [] =>
      -- unreachable while the remotes-nonempty invariant holds
      -- (`first_remote_rcu` is documented to be non-NULL)
      (false, { dev with fdb := updateMac dev.fdb src_mac (fun _ => fU) })
    | r0 :: rest =>
      if r0.remote_ip == src_ip then
        (false, { dev with fdb := updateMac dev.fdb src_mac (fun _ => fU) })
      else if fU.state &&& NUD_NOARP != 0 then
        (true, { dev with fdb := updateMac dev.fdb src_mac (fun _ => fU) })
      else
        let rM := { r0 with remote_ip := src_ip }
        let fM := { fU with remotes := rM :: rest, updated := now }
        (false, { dev with fdb := updateMac dev.fdb src_mac (fun _ => fM) })
  | none =>
    if dev.running then
      (false, (vxlan_fdb_create dev src_mac src_ip NUD_REACHABLE
                 (NLM_F_EXCL ||| NLM_F_CREATE) dev.dst_port dev.default_vni 0
                 NTF_SELF now alloc_ok).2)
    else
      (false, dev)

/-- `vxlan_flush`: purge the forwarding table, keeping only the
all-zeros-MAC default entry (deleted later by `vxlan_uninit`). -/
def vxlan_flush (dev : VxlanDev) : VxlanDev :=
  { dev with
    fdb := dev.fdb.filter (fun f => is_zero_ether_addr f.eth_addr),
    addrcnt := dev.addrcnt -
      (dev.fdb.filter (fun f => !is_zero_ether_addr f.eth_addr)).length }

/-- `vxlan_stop` effect on the forwarding table: cancel the ageing timer
(not modelled) and flush. -/
def vxlan_stop (dev : VxlanDev) : VxlanDev := vxlan_flush dev

/-! ## Ageing (`vxlan_cleanup`) -/

/-- Body of the `vxlan_cleanup` scan: walk the entries threading the
`next_timer` accumulator; permanent entries are skipped, an entry whose
`used + age_interval * HZ` has passed is destroyed, a surviving
non-permanent entry lowers `next_timer` to its timeout when earlier. -/
def cleanupScan (t : List Fdb) (interval now nt : Nat) : List Fdb × Nat :=
  match t with
  | [] => ([], nt)
  | f :: rest =>
    if f.state &&& NUD_PERMANENT != 0 then
      let (s, nt') := cleanupScan rest interval now nt
      (f :: s, nt')
    else
      let timeout := f.used + interval * HZ
      if timeout ≤ now then
        cleanupScan rest interval now nt
      else
        let nt1 := if timeout < nt then timeout else nt
        let (s, nt') := cleanupScan rest interval now nt1
        (f :: s, nt')

/-- `vxlan_cleanup`: one pass of the ageing timer at jiffies `now`.
Returns the device and the next timer deadline (`none` when the device is
not running: the timer is not re-armed and the table is untouched). -/
def vxlan_cleanup (dev : VxlanDev) (now : Nat) : VxlanDev × Option Nat :=
  if !dev.running then (dev, none)
  else
    let (s, nt) := cleanupScan dev.fdb dev.age_interval now (now + FDB_AGE_INTERVAL)
    ({ dev with fdb := s, addrcnt := dev.addrcnt - (dev.fdb.length - s.length) },
     some nt)

/-! ## Receive decoder (`vxlan_udp_encap_recv`) -/

/-- Outcome of the UDP encap receive hook: `notVxlan` is `return 1` (the
packet is handed back to the UDP layer), `drop` is `kfree_skb; return 0`,
`deliver w` is `vs->rcv(vs, skb, vx_vni)` with `w` the VNI word. -/
inductive RecvResult where
  | notVxlan : RecvResult
  | drop : RecvResult
  | deliver : Nat → RecvResult
deriving DecidableEq, Repr

/-- Big-endian 32-bit word at byte offset `i` of the datagram. -/
def word32At (p : List Nat) (i : Nat) : Nat :=
  (p.getD i 0 % 256) * 0x1000000 + (p.getD (i + 1) 0 % 256) * 0x10000 +
  (p.getD (i + 2) 0 % 256) * 0x100 + p.getD (i + 3) 0 % 256

/-- `vxlan_udp_encap_recv`.  `p` is the datagram starting at the UDP
header (the VXLAN header sits at offset 8).  `pull_ok` models the
`iptunnel_pull_header` reallocation succeeding and `sock_found` models
`vxlan_find_sock` finding the listener. -/
def vxlan_udp_encap_recv (p : List Nat) (pull_ok sock_found : Bool) :
    RecvResult :=
  if p.length < VXLAN_HLEN then .notVxlan
  else if word32At p 8 != VXLAN_FLAGS || word32At p 12 &&& 0xff != 0 then
    .notVxlan
  else if !pull_ok then .drop
  else if !sock_found then .drop
  else .deliver (word32At p 12)

/-! ## Transmit header construction -/

/-- Hash of the first `2 * ETH_ALEN` bytes of the inner frame keyed by the
inner L3 protocol number.
Modelled from the spec: `jhash` (include/linux/jhash.h) is not part of
src/; the spec only requires a deterministic 32-bit hash of the inner
destination+source MACs keyed by the inner protocol, so it is modelled as
a deterministic 32-bit fold over those bytes. -/
def jhash (data : List Nat) (initval : Nat) : Nat :=
  data.foldl (fun h b => (h * 31 + b % 256) % 2 ^ 32) (initval % 2 ^ 32)

/-- `vxlan_src_port`: outer UDP source port (host order), computed from
the hash of the first 12 bytes of the inner frame. -/
def vxlan_src_port (port_min port_max : Nat) (frame : List Nat)
    (protocol : Nat) : Nat :=
  let range := port_max - port_min + 1
  let hash := jhash (frame.take 12) protocol
  (hash * range) >>> 32 + port_min

/-- Outer-header parameters chosen by `vxlan_xmit_one` before routing. -/
structure OuterParams where
  tos : Nat
  ttl : Nat
  src_port : Nat
  dst_port : Nat
  vni : Nat
deriving DecidableEq, Repr

/-- Inner-frame DSCP field used when the endpoint inherits TOS.
Modelled from the spec: `ip_tunnel_get_dsfield` (net/ip_tunnels.h) is not
part of src/; per the spec it copies the inner IP header's DSCP field. -/
def ip_tunnel_get_dsfield (inner_tos : Nat) : Nat := inner_tos

/-- The header-parameter computation of `vxlan_xmit_one` (the part before
the route lookup): effective destination port, VNI, TTL (1 for a multicast
destination when the endpoint TTL is 0), TOS (inner DSCP when the endpoint
`tos` equals 1) and flow-hashed source port. -/
def vxlan_xmit_one_params (dev : VxlanDev) (rdst : Rdst) (frame : List Nat)
    (protocol : Nat) (inner_tos : Nat) : OuterParams :=
  let dst_port := if rdst.remote_port != 0 then rdst.remote_port else dev.dst_port
  let vni := rdst.remote_vni
  let dst := rdst.remote_ip
  let ttl := if dev.ttl == 0 && IN_MULTICAST dst then 1 else dev.ttl
  let tos := if dev.tos == 1 then ip_tunnel_get_dsfield inner_tos else dev.tos
  let src_port := vxlan_src_port dev.port_min dev.port_max frame protocol
  { tos := tos, ttl := ttl, src_port := src_port, dst_port := dst_port, vni := vni }

/-! ## Netlink validation (`vxlan_validate`) -/

/-- The `IFLA_ADDRESS` attribute: payload length and the address value. -/
structure AddrAttr where
  len : Nat
  mac : Nat
deriving DecidableEq, Repr

/-- `vxlan_validate`: link-create validation.  `hasData` models
`data != NULL`; `id?` is `IFLA_VXLAN_ID` (a u32), `range?` is
`IFLA_VXLAN_PORT_RANGE` as host-order `(low, high)`. -/
def vxlan_validate (addr : Option AddrAttr) (hasData : Bool)
    (id? : Option Nat) (range? : Option (Nat × Nat)) : Int :=
  match addr with
  | some a =>
    if a.len != 6 then -EINVAL
    else if !is_valid_ether_addr a.mac then -EADDRNOTAVAIL
    else vxlan_validate_data hasData id? range?
  | none => vxlan_validate_data hasData id? range?
where
  vxlan_validate_data (hasData : Bool) (id? : Option Nat)
      (range? : Option (Nat × Nat)) : Int :=
    if !hasData then -EINVAL
    else
      match id? with
      | some id =>
        if VXLAN_VID_MASK ≤ id % 2 ^ 32 then -ERANGE
        else vxlan_validate_range range?
      | none => vxlan_validate_range range?
  vxlan_validate_range (range? : Option (Nat × Nat)) : Int :=
    match range? with
    | some (lo, hi) => if hi % 2 ^ 16 < lo % 2 ^ 16 then -EINVAL else 0
    | none => 0

/-! ## Specification-side predicates and concrete instances -/

/-- Invariant: every entry reachable in the table has at least one
destination. -/
def remotesNonempty (t : List Fdb) : Prop := ∀ f ∈ t, f.remotes ≠ []

/-- Invariant: at most one entry per MAC (creation only happens when the
lookup misses, so chains never hold duplicate keys). -/
def macsNodup (t : List Fdb) : Prop := (t.map Fdb.eth_addr).Nodup

/-- Timeouts of the non-permanent entries that survive an ageing pass:
the candidates for the next timer deadline. -/
def survivorTimeouts (t : List Fdb) (interval now : Nat) : List Nat :=
  (t.filter (fun f =>
      f.state &&& NUD_PERMANENT == 0 && decide (now < f.used + interval * HZ))).map
    (fun f => f.used + interval * HZ)

/-- A datagram whose VXLAN flags word is exactly 0x08000000 but whose VNI
word has a non-zero low byte (bytes 0..7 are the outer UDP header). -/
def cexPkt : List Nat := [0, 0, 0, 0, 0, 0, 0, 0, 0x08, 0, 0, 0, 0, 0, 10, 1]

/-- A forwarding entry with a unicast MAC (first octet 0xaa is even). -/
def fdbUni : Fdb := ⟨0xaabbccddee04, NUD_PERMANENT, 0, 0, 0, [⟨0x0a000008, 0, 10, 0⟩]⟩

/-- A forwarding entry with a multicast MAC (01:00:5e:00:00:01). -/
def fdbMc : Fdb := ⟨0x01005e000001, NUD_PERMANENT, 0, 0, 0, [⟨0x0a000008, 0, 10, 0⟩]⟩

/-- A static (NOARP) entry bound to 10.0.0.7. -/
def fdbNoarp : Fdb := ⟨0xcccccccccc03, NUD_NOARP, 0, 0, 0, [⟨0x0a000007, 0, 10, 0⟩]⟩

def devUni : VxlanDev := ⟨[fdbUni], 1, 0, 4789, 10, 0, 0, 0, 32768, 61000, 300, true⟩
def devMc : VxlanDev := ⟨[fdbMc], 1, 0, 4789, 10, 0, 0, 0, 32768, 61000, 300, true⟩
def devNoarp : VxlanDev := ⟨[fdbNoarp], 1, 0, 4789, 10, 0, 0, 0, 32768, 61000, 300, true⟩
def devEmpty : VxlanDev := ⟨[], 0, 0, 4789, 10, 0, 0, 0, 32768, 61000, 300, true⟩

/-- A stopped device: not running, only the all-zeros default entry left. -/
def devDown : VxlanDev :=
  ⟨[⟨0, NUD_PERMANENT, NTF_SELF, 0, 0, [⟨0x0a000001, 0, 10, 0⟩]⟩],
   1, 0, 4789, 10, 0, 0, 0, 32768, 61000, 300, false⟩

def fdbAgeOld : Fdb := ⟨1, NUD_REACHABLE, 0, 0, 0, [⟨0x0a000001, 0, 10, 0⟩]⟩
def fdbAgeNew : Fdb := ⟨2, NUD_REACHABLE, 0, 0, 29800, [⟨0x0a000001, 0, 10, 0⟩]⟩
def fdbAgePerm : Fdb := ⟨3, NUD_PERMANENT, 0, 0, 0, [⟨0x0a000001, 0, 10, 0⟩]⟩

/-- Device with one expired, one fresh and one permanent entry. -/
def devAge : VxlanDev :=
  ⟨[fdbAgeOld, fdbAgeNew, fdbAgePerm], 3, 0, 4789, 10, 0, 0, 0, 32768, 61000, 300, true⟩

/-! ## Helper lemmas -/

theorem mem_updateMac_const {t : List Fdb} {mac : Nat} {x y : Fdb}
    (h : y ∈ updateMac t mac (fun _ => x)) : y ∈ t ∨ y = x := by
  induction t with
  | nil => simp [updateMac] at h
  | cons f rest ih =>
    simp only [updateMac] at h
    by_cases hf : (f.eth_addr == mac) = true
    · rw [if_pos hf] at h
      rcases List.mem_cons.mp h with h1 | h1
      · exact Or.inr h1
      · exact Or.inl (List.mem_cons_of_mem _ h1)
    · rw [if_neg hf] at h
      rcases List.mem_cons.mp h with h1 | h1
      · exact Or.inl (h1 ▸ List.mem_cons_self _ _)
      · rcases ih h1 with h2 | h2
        · exact Or.inl (List.mem_cons_of_mem _ h2)
        · exact Or.inr h2

theorem map_updateMac {t : List Fdb} {mac : Nat} {x : Fdb}
    (hx : x.eth_addr = mac) :
    (updateMac t mac (fun _ => x)).map Fdb.eth_addr = t.map Fdb.eth_addr := by
  induction t with
  | nil => rfl
  | cons f rest ih =>
    simp only [updateMac]
    by_cases hf : (f.eth_addr == mac) = true
    · rw [if_pos hf]
      have hfm : f.eth_addr = mac := by simpa using hf
      simp [hx, hfm]
    · rw [if_neg hf]
      simp [ih]

theorem findMac_updateMac {t : List Fdb} {mac : Nat} {f x : Fdb}
    (h : findMac t mac = some f) (hx : x.eth_addr = mac) :
    findMac (updateMac t mac (fun _ => x)) mac = some x := by
  induction t with
  | nil => simp [findMac] at h
  | cons g rest ih =>
    cases hg : g.eth_addr == mac with
    | true =>
      simp only [updateMac, hg, if_true, findMac, List.find?]
      simp [hx]
    | false =>
      have h' : findMac rest mac = some f := by
        simpa [findMac, List.find?, hg] using h
      simp only [updateMac, hg, if_false, findMac, List.find?]
      simpa [hg] using ih h'

theorem findMac_mem_addr {t : List Fdb} {mac : Nat} {f : Fdb}
    (h : findMac t mac = some f) : f ∈ t ∧ f.eth_addr = mac :=
  ⟨List.mem_of_find?_eq_some h, by simpa using List.find?_some h⟩

theorem findMac_removeMac {t : List Fdb} {mac : Nat}
    (hnd : macsNodup t) : findMac (removeMac t mac) mac = none := by
  induction t with
  | nil => rfl
  | cons f rest ih =>
    simp only [macsNodup, List.map_cons, List.nodup_cons] at hnd
    cases hf : f.eth_addr == mac with
    | true =>
      have hfm : f.eth_addr = mac := by simpa using hf
      simp only [removeMac, List.eraseP_cons, hf, cond_true]
      apply List.find?_eq_none.mpr
      intro x hx
      simp only [beq_iff_eq]
      intro hxe
      refine hnd.1 ?_
      rw [hfm, ← hxe]
      exact List.mem_map_of_mem Fdb.eth_addr hx
    | false =>
      simp only [removeMac, List.eraseP_cons, hf, cond_false, findMac, List.find?, hf]
      exact ih hnd.2

theorem mem_removeMac {t : List Fdb} {mac : Nat} {y : Fdb}
    (h : y ∈ removeMac t mac) : y ∈ t :=
  List.mem_of_mem_eraseP h

theorem replace_remotes_ne_nil {f : Fdb} {ip port vni ifindex : Nat}
    (h : f.remotes ≠ []) :
    (vxlan_fdb_replace f ip port vni ifindex).remotes ≠ [] := by
  unfold vxlan_fdb_replace
  cases hrd : vxlan_fdb_find_rdst f ip port vni ifindex with
  | some rd => simp [h]
  | none =>
    cases hr : f.remotes with
    | nil => exact absurd hr h
    | cons r0 rest => simp

theorem append_remotes_cases (f : Fdb) (ip port vni ifindex : Nat)
    (alloc_ok : Bool) :
    (vxlan_fdb_append f ip port vni ifindex alloc_ok).2.remotes = f.remotes ∨
    (vxlan_fdb_append f ip port vni ifindex alloc_ok).2.remotes
      = f.remotes ++ [⟨ip, port, vni, ifindex⟩] := by
  unfold vxlan_fdb_append
  cases hrd : vxlan_fdb_find_rdst f ip port vni ifindex with
  | some rd => exact Or.inl rfl
  | none =>
    cases alloc_ok with
    | true => exact Or.inr rfl
    | false => exact Or.inl rfl

theorem append_remotes_ne_nil {f : Fdb} {ip port vni ifindex : Nat}
    {alloc_ok : Bool} (h : f.remotes ≠ []) :
    (vxlan_fdb_append f ip port vni ifindex alloc_ok).2.remotes ≠ [] := by
  rcases append_remotes_cases f ip port vni ifindex alloc_ok with h1 | h1 <;> simp [h1, h]

theorem upd_state_flags_eth_addr (f : Fdb) (state ndm_flags now : Nat) :
    (fdb_upd_state_flags f state ndm_flags now).eth_addr = f.eth_addr := by
  simp only [fdb_upd_state_flags]
  split_ifs <;> rfl

theorem upd_state_flags_remotes (f : Fdb) (state ndm_flags now : Nat) :
    (fdb_upd_state_flags f state ndm_flags now).remotes = f.remotes := by
  simp only [fdb_upd_state_flags]
  split_ifs <;> rfl

theorem replace_eth_addr (f : Fdb) (ip port vni ifindex : Nat) :
    (vxlan_fdb_replace f ip port vni ifindex).eth_addr = f.eth_addr := by
  cases h : vxlan_fdb_find_rdst f ip port vni ifindex with
  | some rd => simp [vxlan_fdb_replace, h]
  | none => cases hr : f.remotes <;> simp [vxlan_fdb_replace, h, hr]

theorem append_eth_addr (f : Fdb) (ip port vni ifindex : Nat)
    (alloc_ok : Bool) :
    (vxlan_fdb_append f ip port vni ifindex alloc_ok).2.eth_addr = f.eth_addr := by
  cases h : vxlan_fdb_find_rdst f ip port vni ifindex with
  | some rd => simp [vxlan_fdb_append, h]
  | none => cases alloc_ok <;> simp [vxlan_fdb_append, h]

theorem find_rdst_congr {f g : Fdb} (h : f.remotes = g.remotes)
    (ip port vni ifindex : Nat) :
    vxlan_fdb_find_rdst f ip port vni ifindex
      = vxlan_fdb_find_rdst g ip port vni ifindex := by
  unfold vxlan_fdb_find_rdst
  rw [h]

theorem append_remotes_of_none {f : Fdb} {ip port vni ifindex : Nat}
    (h : vxlan_fdb_find_rdst f ip port vni ifindex = none) :
    (vxlan_fdb_append f ip port vni ifindex true).2.remotes
      = f.remotes ++ [⟨ip, port, vni, ifindex⟩] := by
  simp [vxlan_fdb_append, h]

theorem append_remotes_of_some {f : Fdb} {ip port vni ifindex : Nat} {rd : Rdst}
    {alloc_ok : Bool} (h : vxlan_fdb_find_rdst f ip port vni ifindex = some rd) :
    (vxlan_fdb_append f ip port vni ifindex alloc_ok).2.remotes = f.remotes := by
  simp [vxlan_fdb_append, h]

theorem replace_singleton {f : Fdb} {rd0 : Rdst} (ip port vni ifindex : Nat)
    (hr : f.remotes = [rd0]) :
    (vxlan_fdb_replace f ip port vni ifindex).remotes
      = [⟨ip, port, vni, ifindex⟩] := by
  cases h : vxlan_fdb_find_rdst f ip port vni ifindex with
  | some rd =>
    have hmem : rd ∈ f.remotes := by
      unfold vxlan_fdb_find_rdst at h
      exact List.mem_of_find?_eq_some h
    have heq : rd = ⟨ip, port, vni, ifindex⟩ := by
      unfold vxlan_fdb_find_rdst at h
      have hpred := List.find?_some h
      simp only [Bool.and_eq_true, beq_iff_eq] at hpred
      cases rd
      simp_all
    rw [hr] at hmem
    simp only [List.mem_singleton] at hmem
    simp [vxlan_fdb_replace, h, hr, ← hmem, heq]
  | none =>
    simp [vxlan_fdb_replace, h, hr]

theorem jhash_lt (data : List Nat) (initval : Nat) : jhash data initval < 2 ^ 32 := by
  have step : ∀ (l : List Nat) (a : Nat), a < 2 ^ 32 →
      l.foldl (fun h b => (h * 31 + b % 256) % 2 ^ 32) a < 2 ^ 32 := by
    intro l
    induction l with
    | nil => intro a ha; simpa using ha
    | cons b rest ih =>
      intro a ha
      simp only [List.foldl_cons]
      exact ih _ (Nat.mod_lt _ (by norm_num))
  exact step data _ (Nat.mod_lt _ (by norm_num))

theorem cleanupScan_eq (interval now : Nat) :
    ∀ (t : List Fdb) (nt : Nat),
      cleanupScan t interval now nt =
        (t.filter (fun f => f.state &&& NUD_PERMANENT != 0 || decide (now < f.used + interval * HZ)),
         (survivorTimeouts t interval now).foldl min nt) := by
  intro t
  induction t with
  | nil => intro nt; rfl
  | cons f rest ih =>
    intro nt
    cases hp : (f.state &&& NUD_PERMANENT != 0) with
    | true =>
      have hp0 : (f.state &&& NUD_PERMANENT == 0) = false := by
        simpa using hp
      simp only [cleanupScan, hp, if_true, ih nt]
      simp [survivorTimeouts, List.filter_cons, hp, hp0]
    | false =>
      have hp0 : (f.state &&& NUD_PERMANENT == 0) = true := by
        simpa using hp
      by_cases ht : f.used + interval * HZ ≤ now
      · have hlt : (decide (now < f.used + interval * HZ)) = false := by
          simp [Nat.not_lt.mpr ht]
        simp only [cleanupScan, hp, Bool.false_eq_true, if_false, if_pos ht, ih nt]
        simp [survivorTimeouts, List.filter_cons, hp, hp0, hlt]
      · have hlt : (decide (now < f.used + interval * HZ)) = true := by
          simp [Nat.lt_of_not_le ht]
        have hmin : (if f.used + interval * HZ < nt then f.used + interval * HZ else nt)
            = min nt (f.used + interval * HZ) := by
          split_ifs with h <;> omega
        simp only [cleanupScan, hp, Bool.false_eq_true, if_false, if_neg ht, hmin, ih]
        simp [survivorTimeouts, List.filter_cons, hp, hp0, hlt]

/-! ## Claim theorems -/

/-- C1, counterexample: a datagram whose VXLAN flags word is exactly
0x08000000 but whose VNI word has a non-zero low byte is handed back to
the UDP layer (`notVxlan`, `return 1`), not consumed and dropped, so the
decoder does not return `NotVxlan` only when the flags word differs from
0x08000000. -/
theorem recv_bad_vni_low_byte_is_notVxlan :
    vxlan_udp_encap_recv cexPkt true true = RecvResult.notVxlan ∧
    word32At cexPkt 8 = VXLAN_FLAGS ∧ word32At cexPkt 12 &&& 0xff = 1 := by
  decide

/-- C1 (amended): the receive hook returns the packet to the UDP layer
exactly when the datagram is shorter than the UDP+VXLAN headers, the
VXLAN flags word differs from 0x08000000, or the low byte of the VNI word
is non-zero; a well-flagged packet with a non-zero VNI low byte is
therefore a not-mine, not a drop. -/
theorem recv_notVxlan_iff (p : List Nat) (pull_ok sock_found : Bool) :
    vxlan_udp_encap_recv p pull_ok sock_found = RecvResult.notVxlan ↔
      (p.length < VXLAN_HLEN ∨ word32At p 8 ≠ VXLAN_FLAGS ∨
       word32At p 12 &&& 0xff ≠ 0) := by
  unfold vxlan_udp_encap_recv
  split_ifs with h1 h2 h3 h4 <;>
    simp_all [Bool.or_eq_true, bne_iff_ne]

/-- C7, counterexample: with endpoint `tos = 0` the outer TOS is the
literal 0, not a copy of the inner DSCP (0xb8 here); the inherit sentinel
is `tos = 1`, for which the configured value is not used verbatim. -/
theorem tos_zero_not_inherited :
    (vxlan_xmit_one_params devUni ⟨0x0a000001, 0, 10, 0⟩ [] 0x0800 0xb8).tos = 0 ∧
    devUni.tos = 0 ∧ (0xb8 : Nat) ≠ 0 ∧
    (vxlan_xmit_one_params { devUni with tos := 1 } ⟨0x0a000001, 0, 10, 0⟩ [] 0x0800 0xb8).tos = 0xb8 := by
  decide

/-- C7 (amended): the outer IP TOS equals the endpoint's configured `tos`
for every value other than 1, and `tos = 1` means the inner IP DSCP is
copied into the outer header. -/
theorem xmit_tos_spec (dev : VxlanDev) (rdst : Rdst) (frame : List Nat)
    (protocol inner_tos : Nat) :
    (dev.tos = 1 →
      (vxlan_xmit_one_params dev rdst frame protocol inner_tos).tos = inner_tos) ∧
    (dev.tos ≠ 1 →
      (vxlan_xmit_one_params dev rdst frame protocol inner_tos).tos = dev.tos) := by
  unfold vxlan_xmit_one_params ip_tunnel_get_dsfield
  constructor <;> intro h <;> simp [h]

/-- C7 witness: concrete evaluations of the amended statement. -/
theorem xmit_tos_spec_witness :
    (vxlan_xmit_one_params { devUni with tos := 1 } ⟨0x0a000001, 0, 10, 0⟩ [] 0x0800 0xb8).tos = 0xb8 ∧
    (vxlan_xmit_one_params devUni ⟨0x0a000001, 0, 10, 0⟩ [] 0x0800 0xb8).tos = 0 :=
  ⟨(xmit_tos_spec { devUni with tos := 1 } ⟨0x0a000001, 0, 10, 0⟩ [] 0x0800 0xb8).1 rfl,
   (xmit_tos_spec devUni ⟨0x0a000001, 0, 10, 0⟩ [] 0x0800 0xb8).2 (by decide)⟩

/-- C9, counterexample: the VNI 0xffffff lies in the documented range
0..2^24-1 but link-create validation rejects it with -ERANGE (the check
is `id >= VXLAN_VID_MASK` with `VXLAN_VID_MASK = 2^24 - 1`). -/
theorem validate_rejects_max_vni :
    vxlan_validate none true (some 0xffffff) none = -ERANGE ∧
    (0xffffff : Nat) < 2 ^ 24 := by
  decide

/-- C9 (amended): with a well-formed message, the ID attribute is
rejected with -ERANGE exactly when it is at least 2^24 - 1; the VNIs
0..2^24-2 pass the range check. -/
theorem vxlan_validate_id_spec (id : Nat) (h : id < 2 ^ 32) :
    (vxlan_validate none true (some id) none = -ERANGE ↔ 2 ^ 24 - 1 ≤ id) ∧
    (vxlan_validate none true (some id) none = 0 ↔ id < 2 ^ 24 - 1) := by
  have hmask : VXLAN_VID_MASK = 2 ^ 24 - 1 := by decide
  simp only [vxlan_validate, vxlan_validate.vxlan_validate_data,
    vxlan_validate.vxlan_validate_range, Bool.not_true, ERANGE,
    Nat.mod_eq_of_lt h, if_false, Bool.false_eq_true]
  split_ifs with h2
  · rw [hmask] at h2
    exact ⟨⟨fun _ => h2, fun _ => rfl⟩, ⟨fun hh => hh.elim, fun hh => by omega⟩⟩
  · rw [hmask] at h2
    exact ⟨⟨fun hh => hh.elim, fun hh => by omega⟩, ⟨fun _ => by omega, fun _ => rfl⟩⟩

/-- C4: `create_or_update` with `NLM_F_REPLACE` on an existing entry with
a unicast key overwrites the single destination in place (success, the
entry now holds exactly the new 4-tuple, and the table's key order is
unchanged); `REPLACE` on an existing multicast/zero-MAC entry returns
-EOPNOTSUPP, and `REPLACE` passed on creation of a new multicast/zero-MAC
entry is likewise refused with the table untouched. -/
theorem fdb_replace_spec (dev : VxlanDev)
    (mac ip port vni ifindex state ndm_flags now : Nat) :
    (∀ f rd0, findMac dev.fdb mac = some f → f.remotes = [rd0] →
      is_multicast_ether_addr mac = false → is_zero_ether_addr mac = false →
      (vxlan_fdb_create dev mac ip state NLM_F_REPLACE port vni ifindex ndm_flags now true).1 = 0 ∧
      (∃ f', findMac (vxlan_fdb_create dev mac ip state NLM_F_REPLACE port vni ifindex ndm_flags now true).2.fdb mac = some f' ∧
        f'.remotes = [⟨ip, port, vni, ifindex⟩]) ∧
      (vxlan_fdb_create dev mac ip state NLM_F_REPLACE port vni ifindex ndm_flags now true).2.fdb.map Fdb.eth_addr
        = dev.fdb.map Fdb.eth_addr) ∧
    (∀ f, findMac dev.fdb mac = some f →
      (is_multicast_ether_addr mac || is_zero_ether_addr mac) = true →
      (vxlan_fdb_create dev mac ip state NLM_F_REPLACE port vni ifindex ndm_flags now true).1 = -EOPNOTSUPP) ∧
    (findMac dev.fdb mac = none →
      (is_multicast_ether_addr mac || is_zero_ether_addr mac) = true →
      (dev.addrmax = 0 ∨ dev.addrcnt < dev.addrmax) →
      vxlan_fdb_create dev mac ip state (NLM_F_REPLACE ||| NLM_F_CREATE) port vni ifindex ndm_flags now true
        = (-EOPNOTSUPP, dev)) := by
  have c1 : (NLM_F_REPLACE &&& NLM_F_EXCL != 0) = false := by decide
  have c2 : (NLM_F_REPLACE &&& NLM_F_REPLACE != 0) = true := by decide
  have c3 : (NLM_F_REPLACE &&& NLM_F_APPEND != 0) = false := by decide
  have d2 : ¬ NLM_F_REPLACE = 0 := by decide
  refine ⟨?_, ?_, ?_⟩
  · intro f rd0 hfm hr hmc hz
    have haddr := (findMac_mem_addr hfm).2
    have hu_addr : (fdb_upd_state_flags f state ndm_flags now).eth_addr = mac := by
      rw [upd_state_flags_eth_addr, haddr]
    have hu_rem := upd_state_flags_remotes f state ndm_flags now
    have c4 : (is_multicast_ether_addr (fdb_upd_state_flags f state ndm_flags now).eth_addr
        || is_zero_ether_addr (fdb_upd_state_flags f state ndm_flags now).eth_addr) = false := by
      rw [hu_addr]
      simp [hmc, hz]
    have hrepl_addr : (vxlan_fdb_replace (fdb_upd_state_flags f state ndm_flags now) ip port vni ifindex).eth_addr = mac := by
      rw [replace_eth_addr, hu_addr]
    have hrepl_rem : (vxlan_fdb_replace (fdb_upd_state_flags f state ndm_flags now) ip port vni ifindex).remotes
        = [⟨ip, port, vni, ifindex⟩] :=
      replace_singleton ip port vni ifindex (by rw [hu_rem]; exact hr)
    have hres : vxlan_fdb_create dev mac ip state NLM_F_REPLACE port vni ifindex ndm_flags now true
        = (0, { dev with fdb := updateMac dev.fdb mac (fun _ => vxlan_fdb_replace (fdb_upd_state_flags f state ndm_flags now) ip port vni ifindex) }) := by
      simp [vxlan_fdb_create, hfm, c1, c2, c3, c4, d2]
    rw [hres]
    exact ⟨rfl, ⟨_, findMac_updateMac hfm hrepl_addr, hrepl_rem⟩, map_updateMac hrepl_addr⟩
  · intro f hfm hmz
    have haddr := (findMac_mem_addr hfm).2
    have c4 : (is_multicast_ether_addr (fdb_upd_state_flags f state ndm_flags now).eth_addr
        || is_zero_ether_addr (fdb_upd_state_flags f state ndm_flags now).eth_addr) = true := by
      rw [upd_state_flags_eth_addr, haddr]
      exact hmz
    simp [vxlan_fdb_create, hfm, c1, c2, c4, d2]
  · intro hfm hmz hcap
    have c5 : ((NLM_F_REPLACE ||| NLM_F_CREATE) &&& NLM_F_CREATE == 0) = false := by decide
    have c6 : ((NLM_F_REPLACE ||| NLM_F_CREATE) &&& NLM_F_REPLACE != 0) = true := by decide
    have hcap' : (dev.addrmax != 0 && decide (dev.addrmax ≤ dev.addrcnt)) = false := by
      rcases hcap with h0 | hlt
      · simp [h0]
      · simp [Nat.not_le.mpr hlt]
    simp [vxlan_fdb_create, hfm, c5, c6, hcap', hmz]

/-- C4 witness: the amended/confirmed statement applied to a concrete
device holding dd-style unicast entry aa:bb:cc:dd:ee:04 → 10.0.0.8. -/
theorem fdb_replace_spec_witness :
    (vxlan_fdb_create devUni 0xaabbccddee04 0x0a000009 NUD_PERMANENT NLM_F_REPLACE 4789 10 0 0 7 true).1 = 0 ∧
    (∃ f', findMac (vxlan_fdb_create devUni 0xaabbccddee04 0x0a000009 NUD_PERMANENT NLM_F_REPLACE 4789 10 0 0 7 true).2.fdb 0xaabbccddee04 = some f' ∧
      f'.remotes = [⟨0x0a000009, 4789, 10, 0⟩]) ∧
    (vxlan_fdb_create devUni 0xaabbccddee04 0x0a000009 NUD_PERMANENT NLM_F_REPLACE 4789 10 0 0 7 true).2.fdb.map Fdb.eth_addr
      = devUni.fdb.map Fdb.eth_addr :=
  (fdb_replace_spec devUni 0xaabbccddee04 0x0a000009 4789 10 0 NUD_PERMANENT 0 7).1
    fdbUni ⟨0x0a000008, 0, 10, 0⟩ (by decide) (by decide) (by decide) (by decide)

/-- C5, counterexample: `NLM_F_APPEND` on an existing entry keyed by a
unicast MAC does not fail with -EOPNOTSUPP: the call succeeds (returns 0)
and leaves the device, including the destination list, unchanged. -/
theorem append_unicast_silently_ignored :
    vxlan_fdb_create devUni 0xaabbccddee04 0x0a00000a NUD_PERMANENT NLM_F_APPEND 4789 10 0 0 7 true
      = (0, devUni) ∧
    is_multicast_ether_addr 0xaabbccddee04 = false ∧
    findMac devUni.fdb 0xaabbccddee04 = some fdbUni := by
  decide

/-- C5 (amended): `NLM_F_APPEND` on an existing unicast entry is silently
ignored — the call returns success and the destination list is unchanged;
on a multicast or all-zero MAC the destination is appended when absent,
and an append of a destination already on the list is a no-op. -/
theorem fdb_append_spec (dev : VxlanDev)
    (mac ip port vni ifindex state ndm_flags now : Nat) :
    (∀ f, findMac dev.fdb mac = some f →
      is_multicast_ether_addr mac = false → is_zero_ether_addr mac = false →
      (vxlan_fdb_create dev mac ip state NLM_F_APPEND port vni ifindex ndm_flags now true).1 = 0 ∧
      (∃ f', findMac (vxlan_fdb_create dev mac ip state NLM_F_APPEND port vni ifindex ndm_flags now true).2.fdb mac = some f' ∧
        f'.remotes = f.remotes)) ∧
    (∀ f, findMac dev.fdb mac = some f →
      (is_multicast_ether_addr mac || is_zero_ether_addr mac) = true →
      vxlan_fdb_find_rdst f ip port vni ifindex = none →
      (vxlan_fdb_create dev mac ip state NLM_F_APPEND port vni ifindex ndm_flags now true).1 = 0 ∧
      (∃ f', findMac (vxlan_fdb_create dev mac ip state NLM_F_APPEND port vni ifindex ndm_flags now true).2.fdb mac = some f' ∧
        f'.remotes = f.remotes ++ [⟨ip, port, vni, ifindex⟩])) ∧
    (∀ f rd, findMac dev.fdb mac = some f →
      (is_multicast_ether_addr mac || is_zero_ether_addr mac) = true →
      vxlan_fdb_find_rdst f ip port vni ifindex = some rd →
      (vxlan_fdb_create dev mac ip state NLM_F_APPEND port vni ifindex ndm_flags now true).1 = 0 ∧
      (∃ f', findMac (vxlan_fdb_create dev mac ip state NLM_F_APPEND port vni ifindex ndm_flags now true).2.fdb mac = some f' ∧
        f'.remotes = f.remotes)) := by
  have c1 : (NLM_F_APPEND &&& NLM_F_EXCL != 0) = false := by decide
  have c2 : (NLM_F_APPEND &&& NLM_F_REPLACE != 0) = false := by decide
  have c3 : (NLM_F_APPEND &&& NLM_F_APPEND != 0) = true := by decide
  have d3 : ¬ NLM_F_APPEND = 0 := by decide
  refine ⟨?_, ?_, ?_⟩
  · intro f hfm hmc hz
    have haddr := (findMac_mem_addr hfm).2
    have hu_addr : (fdb_upd_state_flags f state ndm_flags now).eth_addr = mac := by
      rw [upd_state_flags_eth_addr, haddr]
    have hu_rem := upd_state_flags_remotes f state ndm_flags now
    have c4 : (is_multicast_ether_addr (fdb_upd_state_flags f state ndm_flags now).eth_addr
        || is_zero_ether_addr (fdb_upd_state_flags f state ndm_flags now).eth_addr) = false := by
      rw [hu_addr]
      simp [hmc, hz]
    have hres : vxlan_fdb_create dev mac ip state NLM_F_APPEND port vni ifindex ndm_flags now true
        = (0, { dev with fdb := updateMac dev.fdb mac (fun _ => fdb_upd_state_flags f state ndm_flags now) }) := by
      simp [vxlan_fdb_create, hfm, c1, c2, c3, c4]
    rw [hres]
    exact ⟨rfl, _, findMac_updateMac hfm hu_addr, hu_rem⟩
  · intro f hfm hmz hrd
    have haddr := (findMac_mem_addr hfm).2
    have hu_addr : (fdb_upd_state_flags f state ndm_flags now).eth_addr = mac := by
      rw [upd_state_flags_eth_addr, haddr]
    have hu_rem := upd_state_flags_remotes f state ndm_flags now
    have c4 : (is_multicast_ether_addr (fdb_upd_state_flags f state ndm_flags now).eth_addr
        || is_zero_ether_addr (fdb_upd_state_flags f state ndm_flags now).eth_addr) = true := by
      rw [hu_addr]
      exact hmz
    have hrd' : vxlan_fdb_find_rdst (fdb_upd_state_flags f state ndm_flags now) ip port vni ifindex = none := by
      rw [find_rdst_congr hu_rem]
      exact hrd
    have happ_addr : (vxlan_fdb_append (fdb_upd_state_flags f state ndm_flags now) ip port vni ifindex true).2.eth_addr = mac := by
      rw [append_eth_addr, hu_addr]
    have happ_rem : (vxlan_fdb_append (fdb_upd_state_flags f state ndm_flags now) ip port vni ifindex true).2.remotes
        = f.remotes ++ [⟨ip, port, vni, ifindex⟩] := by
      rw [append_remotes_of_none hrd', hu_rem]
    have hres : vxlan_fdb_create dev mac ip state NLM_F_APPEND port vni ifindex ndm_flags now true
        = (0, { dev with fdb := updateMac dev.fdb mac (fun _ => (vxlan_fdb_append (fdb_upd_state_flags f state ndm_flags now) ip port vni ifindex true).2) }) := by
      simp [vxlan_fdb_create, hfm, c1, c2, c3, c4, d3, vxlan_fdb_append, hrd']
    rw [hres]
    exact ⟨rfl, _, findMac_updateMac hfm happ_addr, happ_rem⟩
  · intro f rd hfm hmz hrd
    have haddr := (findMac_mem_addr hfm).2
    have hu_addr : (fdb_upd_state_flags f state ndm_flags now).eth_addr = mac := by
      rw [upd_state_flags_eth_addr, haddr]
    have hu_rem := upd_state_flags_remotes f state ndm_flags now
    have c4 : (is_multicast_ether_addr (fdb_upd_state_flags f state ndm_flags now).eth_addr
        || is_zero_ether_addr (fdb_upd_state_flags f state ndm_flags now).eth_addr) = true := by
      rw [hu_addr]
      exact hmz
    have hrd' : vxlan_fdb_find_rdst (fdb_upd_state_flags f state ndm_flags now) ip port vni ifindex = some rd := by
      rw [find_rdst_congr hu_rem]
      exact hrd
    have happ_addr : (vxlan_fdb_append (fdb_upd_state_flags f state ndm_flags now) ip port vni ifindex true).2.eth_addr = mac := by
      rw [append_eth_addr, hu_addr]
    have happ_rem : (vxlan_fdb_append (fdb_upd_state_flags f state ndm_flags now) ip port vni ifindex true).2.remotes
        = f.remotes := by
      rw [append_remotes_of_some hrd', hu_rem]
    have hres : vxlan_fdb_create dev mac ip state NLM_F_APPEND port vni ifindex ndm_flags now true
        = (0, { dev with fdb := updateMac dev.fdb mac (fun _ => (vxlan_fdb_append (fdb_upd_state_flags f state ndm_flags now) ip port vni ifindex true).2) }) := by
      simp [vxlan_fdb_create, hfm, c1, c2, c3, c4, d3, vxlan_fdb_append, hrd']
    rw [hres]
    exact ⟨rfl, _, findMac_updateMac hfm happ_addr, happ_rem⟩

/-- C5 witness: appending a second destination to a multicast entry. -/
theorem fdb_append_spec_witness :
    (vxlan_fdb_create devMc 0x01005e000001 0x0a000009 NUD_PERMANENT NLM_F_APPEND 4789 10 0 0 7 true).1 = 0 ∧
    (∃ f', findMac (vxlan_fdb_create devMc 0x01005e000001 0x0a000009 NUD_PERMANENT NLM_F_APPEND 4789 10 0 0 7 true).2.fdb 0x01005e000001 = some f' ∧
      f'.remotes = fdbMc.remotes ++ [⟨0x0a000009, 4789, 10, 0⟩]) :=
  (fdb_append_spec devMc 0x01005e000001 0x0a000009 4789 10 0 NUD_PERMANENT 0 7).2.1
    fdbMc (by decide) (by decide) (by decide)

/-- C2, counterexample to the claimed invariant: a create-new call during
which the destination allocation fails (`alloc_ok = false`).  The C
ignores `vxlan_fdb_append`'s -ENOBUFS in this branch, reports success
(returns 0) and hashes in the entry, so an entry with an empty remotes
list becomes reachable by lookup — the state that `first_remote_rcu`'s
comment ("Guaranteed to be non-NULL") assumes impossible. -/
theorem fdb_create_alloc_failure_empty_remotes :
    (vxlan_fdb_create devEmpty 0xaabbccddee04 0x0a000008 NUD_PERMANENT NLM_F_CREATE 4789 10 0 0 7 false).1 = 0 ∧
    findMac (vxlan_fdb_create devEmpty 0xaabbccddee04 0x0a000008 NUD_PERMANENT NLM_F_CREATE 4789 10 0 0 7 false).2.fdb 0xaabbccddee04
      = some ⟨0xaabbccddee04, NUD_PERMANENT, 0, 7, 7, []⟩ ∧
    (vxlan_fdb_create devEmpty 0xaabbccddee04 0x0a000008 NUD_PERMANENT NLM_F_CREATE 4789 10 0 0 7 false).2.addrcnt = 1 := by
  decide

/-- Complement to the allocation-failure bug: when every destination
allocation succeeds, the non-empty-remotes invariant is preserved by
`vxlan_fdb_create` and `vxlan_fdb_delete`; creation installs the entry
with exactly one destination, and a delete whose 4-tuple matches the last
remaining destination destroys the whole entry rather than leaving it
with an empty list. -/
theorem fdb_entry_remotes_nonempty (dev : VxlanDev)
    (mac ip port vni ifindex state flags ndm_flags now : Nat)
    (hinv : remotesNonempty dev.fdb) (hnd : macsNodup dev.fdb) :
    remotesNonempty (vxlan_fdb_create dev mac ip state flags port vni ifindex ndm_flags now true).2.fdb ∧
    remotesNonempty (vxlan_fdb_delete dev mac ip port vni ifindex now).2.fdb ∧
    (findMac dev.fdb mac = none →
      (vxlan_fdb_create dev mac ip state flags port vni ifindex ndm_flags now true).1 = 0 →
      findMac (vxlan_fdb_create dev mac ip state flags port vni ifindex ndm_flags now true).2.fdb mac
        = some ⟨mac, state, ndm_flags, now, now, [⟨ip, port, vni, ifindex⟩]⟩) ∧
    (∀ f, findMac dev.fdb mac = some f → f.remotes = [⟨ip, port, vni, ifindex⟩] → ip ≠ 0 →
      findMac (vxlan_fdb_delete dev mac ip port vni ifindex now).2.fdb mac = none) := by
  refine ⟨?_, ?_, ?_, ?_⟩
  · cases hfm : findMac dev.fdb mac with
    | none =>
      simp only [vxlan_fdb_create, hfm]
      split_ifs with h1 h2 h3
      · exact hinv
      · exact hinv
      · exact hinv
      · intro g hg
        rcases List.mem_cons.mp hg with rfl | hg'
        · simp [vxlan_fdb_append, vxlan_fdb_find_rdst]
        · exact hinv g hg'
    | some f =>
      have hmem := (findMac_mem_addr hfm).1
      have h2r : (fdb_upd_state_flags f state ndm_flags now).remotes ≠ [] := by
        rw [upd_state_flags_remotes]
        exact hinv f hmem
      simp only [vxlan_fdb_create, hfm]
      split_ifs <;> intro g hg <;>
        first
        | exact hinv g hg
        | ((rcases mem_updateMac_const hg with hg' | rfl) <;>
            first
            | exact hinv g hg'
            | exact h2r
            | exact append_remotes_ne_nil (replace_remotes_ne_nil h2r)
            | exact append_remotes_ne_nil h2r
            | exact replace_remotes_ne_nil h2r)
  · cases hfm : findMac dev.fdb mac with
    | none =>
      simp only [vxlan_fdb_delete, hfm]
      exact hinv
    | some f =>
      have hmem := (findMac_mem_addr hfm).1
      simp only [vxlan_fdb_delete, hfm]
      cases hrd : vxlan_fdb_find_rdst { f with used := now } ip port vni ifindex with
      | none =>
        simp only [hrd]
        split_ifs with h1
        · intro g hg
          rcases mem_updateMac_const hg with hg' | rfl
          · exact hinv g hg'
          · simpa using hinv f hmem
        · exact fun g hg => hinv g (mem_removeMac hg)
      | some rd =>
        simp only [hrd]
        split_ifs with h1 h2
        · intro g hg
          rcases mem_updateMac_const hg with hg' | rfl
          · exact hinv g hg'
          · have hne := hinv f hmem
            have h2' : f.remotes.length ≠ 1 := by simpa using h2
            have hp : 0 < f.remotes.length := List.length_pos.mpr hne
            have hlen : (f.remotes.erase rd).length ≠ 0 := by
              rw [List.length_erase]
              split_ifs <;> omega
            have hx : f.remotes.erase rd ≠ [] := by
              intro hcon
              apply hlen
              rw [hcon]
              rfl
            simpa using hx
        · exact fun g hg => hinv g (mem_removeMac hg)
        · exact fun g hg => hinv g (mem_removeMac hg)
  · intro hfm hok
    simp only [vxlan_fdb_create, hfm] at hok ⊢
    split_ifs at hok ⊢ with h1 h2 h3
    · simp [ENOENT] at hok
    · simp [ENOSPC] at hok
    · simp [EOPNOTSUPP] at hok
    · have happ : (vxlan_fdb_append ⟨mac, state, ndm_flags, now, now, []⟩ ip port vni ifindex true).2
          = ⟨mac, state, ndm_flags, now, now, [⟨ip, port, vni, ifindex⟩]⟩ := by
        simp [vxlan_fdb_append, vxlan_fdb_find_rdst]
      rw [happ]
      simp [findMac, List.find?]
  · intro f hfm hr hip
    simp only [vxlan_fdb_delete, hfm]
    have hip' : (ip != 0) = true := by simpa using hip
    rw [if_pos hip']
    have hrd : vxlan_fdb_find_rdst { f with used := now } ip port vni ifindex
        = some ⟨ip, port, vni, ifindex⟩ := by
      unfold vxlan_fdb_find_rdst
      simp [hr, List.find?]
    simp only [hrd]
    have hlen : (({ f with used := now } : Fdb).remotes.length != 1) = false := by
      simp [hr]
    rw [hlen]
    simp only [if_false, Bool.false_eq_true]
    exact findMac_removeMac hnd

/-- Concrete instance of the allocation-success invariant: learning a
fresh MAC on an empty table installs a singleton-destination entry. -/
theorem fdb_entry_remotes_nonempty_witness :
    findMac (vxlan_fdb_create devEmpty 0xbbbbbbbbbb02 0x0a000005 NUD_REACHABLE NLM_F_CREATE 4789 10 0 NTF_SELF 7 true).2.fdb 0xbbbbbbbbbb02
      = some ⟨0xbbbbbbbbbb02, NUD_REACHABLE, NTF_SELF, 7, 7, [⟨0x0a000005, 4789, 10, 0⟩]⟩ := by
  have h := fdb_entry_remotes_nonempty devEmpty 0xbbbbbbbbbb02 0x0a000005 4789 10 0
    NUD_REACHABLE NLM_F_CREATE NTF_SELF 7 (by simp [remotesNonempty, devEmpty])
    (by simp [macsNodup, devEmpty])
  exact h.2.2.1 (by decide) (by decide)

/-- C3, counterexample: receiving from a new source IP for a MAC whose
entry is static (NOARP) does drop the packet, but the entry is not left
unchanged: the lookup refreshes its last-used timestamp. -/
theorem snoop_noarp_drop_refreshes_used :
    (vxlan_snoop devNoarp 0x0a000063 0xcccccccccc03 5 true).1 = true ∧
    (vxlan_snoop devNoarp 0x0a000063 0xcccccccccc03 5 true).2.fdb ≠ devNoarp.fdb ∧
    findMac devNoarp.fdb 0xcccccccccc03 = some fdbNoarp ∧
    fdbNoarp.state &&& NUD_NOARP ≠ 0 ∧
    fdbNoarp.remotes.map Rdst.remote_ip = [0x0a000007] := by
  decide

/-- C3 (amended): snoop on (source MAC, outer source IP): if the entry
exists and its first destination IP matches, nothing changes except the
last-used stamp; if the IP differs and the entry is NOARP the packet is
dropped and the entry is unchanged apart from the refreshed last-used
stamp; if the IP differs otherwise, the first destination IP is replaced
and the update stamp set; if no entry exists and the device is running
with capacity available, a REACHABLE entry flagged SELF with the single
destination (outer source IP, endpoint port, endpoint VNI) is created. -/
theorem vxlan_snoop_spec (dev : VxlanDev) (src_ip src_mac now : Nat) :
    (∀ f r0 rest, findMac dev.fdb src_mac = some f → f.remotes = r0 :: rest →
      r0.remote_ip = src_ip →
      vxlan_snoop dev src_ip src_mac now true =
        (false, { dev with fdb := updateMac dev.fdb src_mac (fun _ => { f with used := now }) })) ∧
    (∀ f r0 rest, findMac dev.fdb src_mac = some f → f.remotes = r0 :: rest →
      r0.remote_ip ≠ src_ip → f.state &&& NUD_NOARP ≠ 0 →
      vxlan_snoop dev src_ip src_mac now true =
        (true, { dev with fdb := updateMac dev.fdb src_mac (fun _ => { f with used := now }) })) ∧
    (∀ f r0 rest, findMac dev.fdb src_mac = some f → f.remotes = r0 :: rest →
      r0.remote_ip ≠ src_ip → f.state &&& NUD_NOARP = 0 →
      vxlan_snoop dev src_ip src_mac now true =
        (false, { dev with fdb := updateMac dev.fdb src_mac (fun _ => { f with updated := now, used := now, remotes := { r0 with remote_ip := src_ip } :: rest }) })) ∧
    (findMac dev.fdb src_mac = none → dev.running = true →
      (dev.addrmax = 0 ∨ dev.addrcnt < dev.addrmax) →
      vxlan_snoop dev src_ip src_mac now true =
        (false, { dev with fdb := (⟨src_mac, NUD_REACHABLE, NTF_SELF, now, now, [⟨src_ip, dev.dst_port, dev.default_vni, 0⟩]⟩ : Fdb) :: dev.fdb, addrcnt := dev.addrcnt + 1 })) := by
  refine ⟨?_, ?_, ?_, ?_⟩
  · intro f r0 rest hfm hrem hip
    have hip' : (r0.remote_ip == src_ip) = true := by simpa using hip
    simp [vxlan_snoop, hfm, hrem, hip']
  · intro f r0 rest hfm hrem hip hst
    have hip' : (r0.remote_ip == src_ip) = false := by simpa using hip
    have hst' : (f.state &&& NUD_NOARP != 0) = true := by simpa using hst
    simp [vxlan_snoop, hfm, hrem, hip', hst']
  · intro f r0 rest hfm hrem hip hst
    have hip' : (r0.remote_ip == src_ip) = false := by simpa using hip
    have hst' : (f.state &&& NUD_NOARP != 0) = false := by simpa using hst
    simp [vxlan_snoop, hfm, hrem, hip', hst']
  · intro hfm hrun hcap
    have c5 : ((NLM_F_EXCL ||| NLM_F_CREATE) &&& NLM_F_CREATE == 0) = false := by decide
    have c6 : ((NLM_F_EXCL ||| NLM_F_CREATE) &&& NLM_F_REPLACE != 0) = false := by decide
    have hcap' : (dev.addrmax != 0 && decide (dev.addrmax ≤ dev.addrcnt)) = false := by
      rcases hcap with h0 | hlt
      · simp [h0]
      · simp [Nat.not_le.mpr hlt]
    simp [vxlan_snoop, hfm, hrun, vxlan_fdb_create, c5, c6, hcap',
      vxlan_fdb_append, vxlan_fdb_find_rdst]

/-- C3 witness: the NOARP-drop conjunct of the amended statement at a
concrete device. -/
theorem vxlan_snoop_spec_witness :
    vxlan_snoop devNoarp 0x0a000063 0xcccccccccc03 5 true =
      (true, { devNoarp with fdb := updateMac devNoarp.fdb 0xcccccccccc03 (fun _ => { fdbNoarp with used := 5 }) }) :=
  (vxlan_snoop_spec devNoarp 0x0a000063 0xcccccccccc03 5).2.1
    fdbNoarp ⟨0x0a000007, 0, 10, 0⟩ [] (by decide) (by decide) (by decide) (by decide)

/-- C6: one ageing pass at jiffies `now` on a running device removes
exactly the entries whose state lacks NUD_PERMANENT and whose `used`
stamp is at or before `now - age_interval * HZ`; permanent entries always
survive; and the re-armed timer deadline is the minimum of
`now + FDB_AGE_INTERVAL` and the timeouts of the surviving non-permanent
entries. -/
theorem vxlan_cleanup_ageing_spec (dev : VxlanDev) (now : Nat)
    (hrun : dev.running = true) (hT : dev.age_interval * HZ ≤ now) :
    ((vxlan_cleanup dev now).1.fdb
      = dev.fdb.filter (fun f => !(f.state &&& NUD_PERMANENT == 0 && decide (f.used ≤ now - dev.age_interval * HZ)))) ∧
    (∀ f ∈ dev.fdb, f.state &&& NUD_PERMANENT ≠ 0 → f ∈ (vxlan_cleanup dev now).1.fdb) ∧
    ((vxlan_cleanup dev now).2
      = some ((survivorTimeouts dev.fdb dev.age_interval now).foldl min (now + FDB_AGE_INTERVAL))) := by
  have hcs := cleanupScan_eq dev.age_interval now dev.fdb (now + FDB_AGE_INTERVAL)
  have hrun' : (!dev.running) = false := by simp [hrun]
  refine ⟨?_, ?_, ?_⟩
  · simp only [vxlan_cleanup, hrun', Bool.false_eq_true, if_false, hcs]
    apply List.filter_congr
    intro f _
    have harith : (now < f.used + dev.age_interval * HZ)
        ↔ ¬(f.used ≤ now - dev.age_interval * HZ) := by omega
    cases hp : (f.state &&& NUD_PERMANENT == 0) with
    | true =>
      simp [bne, hp, harith]
      have h2 : (now - dev.age_interval * HZ < f.used)
          ↔ ¬(f.used ≤ now - dev.age_interval * HZ) := by omega
      rw [← decide_not]
      exact decide_eq_decide.mpr h2
    | false => simp [bne, hp]
  · intro f hf hperm
    simp only [vxlan_cleanup, hrun', Bool.false_eq_true, if_false, hcs]
    apply List.mem_filter.mpr
    refine ⟨hf, ?_⟩
    have hp : (f.state &&& NUD_PERMANENT == 0) = false := by
      simpa using hperm
    simp [bne, hp]
  · simp only [vxlan_cleanup, hrun', Bool.false_eq_true, if_false, hcs]

/-- C6 witness: the ageing pass on a device with one expired, one fresh
and one permanent entry at `t = 30000`, threshold 300 s (HZ = 100). -/
theorem vxlan_cleanup_ageing_spec_witness :
    (vxlan_cleanup devAge 30000).1.fdb
      = devAge.fdb.filter (fun f => !(f.state &&& NUD_PERMANENT == 0 && decide (f.used ≤ 30000 - devAge.age_interval * HZ))) ∧
    (vxlan_cleanup devAge 30000).2
      = some ((survivorTimeouts devAge.fdb devAge.age_interval 30000).foldl min (30000 + FDB_AGE_INTERVAL)) :=
  ⟨(vxlan_cleanup_ageing_spec devAge 30000 rfl (by decide)).1,
   (vxlan_cleanup_ageing_spec devAge 30000 rfl (by decide)).2.2⟩

/-- C8: the outer UDP source port equals
`lo + (hash(first 12 inner bytes, l3 proto) * (hi - lo + 1)) >> 32`, hence
always lies in `[lo, hi]`; two frames sharing the same first 12 bytes
(destination+source MACs) and protocol get the identical port; and this
is the port chosen by the transmit header construction. -/
theorem vxlan_src_port_spec (lo hi : Nat) (frame frame2 : List Nat)
    (protocol : Nat) (hle : lo ≤ hi) :
    (lo ≤ vxlan_src_port lo hi frame protocol ∧
     vxlan_src_port lo hi frame protocol ≤ hi) ∧
    vxlan_src_port lo hi frame protocol
      = lo + (jhash (frame.take 12) protocol * (hi - lo + 1)) >>> 32 ∧
    (frame.take 12 = frame2.take 12 →
      vxlan_src_port lo hi frame protocol = vxlan_src_port lo hi frame2 protocol) ∧
    (∀ (dev : VxlanDev) (rdst : Rdst) (inner_tos : Nat),
      (vxlan_xmit_one_params dev rdst frame protocol inner_tos).src_port
        = vxlan_src_port dev.port_min dev.port_max frame protocol) := by
  have hj := jhash_lt (frame.take 12) protocol
  have hrange : 0 < hi - lo + 1 := Nat.succ_pos _
  have hdiv : jhash (frame.take 12) protocol * (hi - lo + 1) / 2 ^ 32 < hi - lo + 1 := by
    rw [Nat.div_lt_iff_lt_mul (by norm_num : (0 : Nat) < 2 ^ 32)]
    calc jhash (frame.take 12) protocol * (hi - lo + 1)
        < 2 ^ 32 * (hi - lo + 1) := mul_lt_mul_of_pos_right hj hrange
      _ = (hi - lo + 1) * 2 ^ 32 := Nat.mul_comm _ _
  refine ⟨⟨?_, ?_⟩, ?_, ?_, ?_⟩
  · simp only [vxlan_src_port, Nat.shiftRight_eq_div_pow]
    omega
  · simp only [vxlan_src_port, Nat.shiftRight_eq_div_pow]
    omega
  · simp only [vxlan_src_port]
    exact Nat.add_comm _ _
  · intro h12
    simp only [vxlan_src_port, h12]
  · intro dev rdst inner_tos
    rfl

/-- C8 witness: the port bounds at a concrete range and frame, applying
the theorem. -/
theorem vxlan_src_port_spec_witness :
    32768 ≤ vxlan_src_port 32768 61000 [1, 2, 3, 4, 5, 6, 7, 8, 9, 10, 11, 12] 8 ∧
    vxlan_src_port 32768 61000 [1, 2, 3, 4, 5, 6, 7, 8, 9, 10, 11, 12] 8 ≤ 61000 :=
  (vxlan_src_port_spec 32768 61000 [1, 2, 3, 4, 5, 6, 7, 8, 9, 10, 11, 12]
    [1, 2, 3, 4, 5, 6, 7, 8, 9, 10, 11, 12] 8 (by norm_num)).1

/-- C10: stopping the endpoint flushes every non-default entry (only
all-zero-MAC entries can remain), and while the device is not running
snoop never adds a MAC to the table — its key multiset is untouched — so
a table holding at most the default entry stays that way under received
packets until the device is opened again. -/
theorem stop_flush_prevents_learning (dev : VxlanDev) (src_ip src_mac now : Nat)
    (alloc_ok : Bool) (hnr : dev.running = false) :
    (∀ f ∈ (vxlan_stop dev).fdb, is_zero_ether_addr f.eth_addr = true) ∧
    ((vxlan_snoop dev src_ip src_mac now alloc_ok).2.fdb.map Fdb.eth_addr
      = dev.fdb.map Fdb.eth_addr) ∧
    ((∀ f ∈ dev.fdb, is_zero_ether_addr f.eth_addr = true) →
      ∀ f ∈ (vxlan_snoop dev src_ip src_mac now alloc_ok).2.fdb,
        is_zero_ether_addr f.eth_addr = true) := by
  have hmap : (vxlan_snoop dev src_ip src_mac now alloc_ok).2.fdb.map Fdb.eth_addr
      = dev.fdb.map Fdb.eth_addr := by
    cases hfm : findMac dev.fdb src_mac with
    | none => simp [vxlan_snoop, hfm, hnr]
    | some f =>
      have haddr := (findMac_mem_addr hfm).2
      simp only [vxlan_snoop, hfm]
      cases hrem : f.remotes with
      | nil => exact map_updateMac haddr
      | cons r0 rest =>
        simp only [hrem]
        split_ifs with h1 h2 <;> exact map_updateMac haddr
  refine ⟨?_, hmap, ?_⟩
  · intro f hf
    have hmem : f ∈ dev.fdb ∧ is_zero_ether_addr f.eth_addr = true := by
      simpa [vxlan_stop, vxlan_flush] using hf
    exact hmem.2
  · intro hall f hf
    have hin : f.eth_addr ∈ (vxlan_snoop dev src_ip src_mac now alloc_ok).2.fdb.map Fdb.eth_addr :=
      List.mem_map_of_mem _ hf
    rw [hmap] at hin
    rcases List.mem_map.mp hin with ⟨g, hg, hge⟩
    rw [← hge]
    exact hall g hg

/-- C10 witness: a stopped device that holds only the default entry,
applying the theorem. -/
theorem stop_flush_prevents_learning_witness :
    (∀ f ∈ (vxlan_stop devDown).fdb, is_zero_ether_addr f.eth_addr = true) ∧
    ((vxlan_snoop devDown 0x0a000005 0xbbbbbbbbbb02 9 true).2.fdb.map Fdb.eth_addr
      = devDown.fdb.map Fdb.eth_addr) :=
  ⟨(stop_flush_prevents_learning devDown 0x0a000005 0xbbbbbbbbbb02 9 true rfl).1,
   (stop_flush_prevents_learning devDown 0x0a000005 0xbbbbbbbbbb02 9 true rfl).2.1⟩

/-- C9 witness: 2^24 - 2 passes, applying the amended statement. -/
theorem vxlan_validate_id_spec_witness :
    vxlan_validate none true (some 0xfffffe) none = 0 :=
  (vxlan_validate_id_spec 0xfffffe (by norm_num)).2.mpr (by norm_num)

end Vxlan
